import Mathlib

/-!
# Verification of the trade-calendar repository

Shallow embedding of `src/lib/trade.js` (session/holiday resolver),
`src/lib/manager.js` (virtual-time transform) and the calendar manager
(`src/unnamed/part_001`), with theorems settling the frozen claims.

Conventions:
* JS epoch-millisecond timestamps are `Int`; virtual-time arithmetic
  (which divides by the time ratio) is over `ℚ`.
* The external timezone/calendar library (`moment-timezone`) is modelled
  in a fixed zero-offset zone: a calendar day is a day number `z : Int`
  (days since 1970-01-01), a wall-clock `TimePoint` on day `z` is the
  timestamp `z * 86400000 + offset-in-ms`, and `YYYYMMDD` integers are
  produced with the standard civil-from-days algorithm.  Day-of-week
  follows moment's `.days()` (0 = Sunday … 6 = Saturday).
* JS structure fields named `end` are called `finish` here (`end` is a
  Lean keyword).
-/

namespace TradeCal

/-- Civil calendar: day number of a Gregorian date (days since 1970-01-01).
Standard days-from-civil algorithm, modelling the external date library. -/
def daysFromCivil (y m d : Int) : Int :=
  let y := if m ≤ 2 then y - 1 else y
  let era := (if 0 ≤ y then y else y - 399) / 400
  let yoe := y - era * 400
  let doy := (153 * (m + (if 2 < m then -3 else 9)) + 2) / 5 + d - 1
  let doe := yoe * 365 + yoe / 4 - yoe / 100 + doy
  era * 146097 + doe - 719468

/-- Civil calendar: Gregorian date `(year, month, day)` of a day number.
Standard civil-from-days algorithm, modelling the external date library. -/
def civilFromDays (z : Int) : Int × Int × Int :=
  let z := z + 719468
  let era := (if 0 ≤ z then z else z - 146096) / 146097
  let doe := z - era * 146097
  let yoe := (doe - doe / 1460 + doe / 36524 - doe / 146096) / 365
  let y := yoe + era * 400
  let doy := doe - (365 * yoe + yoe / 4 - yoe / 100)
  let mp := (5 * doy + 2) / 153
  let d := doy - (153 * mp + 2) / 5 + 1
  let m := mp + (if mp < 10 then 3 else -9)
  (if m ≤ 2 then y + 1 else y, m, d)

/-- Day-of-week of a day number, as moment's `.days()`: 0 = Sunday … 6 = Saturday
(1970-01-01 was a Thursday). -/
def weekday (z : Int) : Int := (z + 4) % 7

/-- The 8-digit `YYYYMMDD` integer of a day number (`date.format('YYYYMMDD')`). -/
def yyyymmddOfDay (z : Int) : Int :=
  let c := civilFromDays z
  c.1 * 10000 + c.2.1 * 100 + c.2.2

/-- Day number of an 8-digit `YYYYMMDD` integer. -/
def dayOfYYYYMMDD (n : Int) : Int :=
  daysFromCivil (n / 10000) (n / 100 % 100) (n % 100)

/-- Model of `moment(n.toString()).add(k, 'days').format('YYYYMMDD')`: shift a
`YYYYMMDD` date by `k` calendar days. -/
def addDaysYYYYMMDD (n k : Int) : Int := yyyymmddOfDay (dayOfYYYYMMDD n + k)

/-- A `{start, end}` pair of epoch-millisecond timestamps (`TimePeriod` in
`trade.js`; also the shape of holiday intervals).  `finish` is the JS `end`. -/
structure TimePeriod where
  start : Int
  finish : Int
deriving DecidableEq, Repr

/-- A wall-clock instant within a day (`TimePoint` in `trade.js`). -/
structure TimePoint where
  hour : Int
  minute : Int
  second : Int
  millisecond : Int
deriving DecidableEq, Repr

/-- Millisecond offset of a `TimePoint` from local midnight. -/
def TimePoint.ms (p : TimePoint) : Int :=
  ((p.hour * 60 + p.minute) * 60 + p.second) * 1000 + p.millisecond

/-- A `{start, end}` pair of `TimePoint`s (`ConfigPeriod` in `trade.js`). -/
structure ConfigPeriod where
  start : TimePoint
  finish : TimePoint
deriving DecidableEq, Repr

/-- Calendar configuration (`CalendarConfig` in `trade.js`): pre-market
period, regular-session start/end points, post-market period. -/
structure CalendarConfig where
  before : ConfigPeriod
  start : TimePoint
  finish : TimePoint
  after : ConfigPeriod
deriving DecidableEq, Repr

/-- Model of `_point2timestamp(date, point)` of `trade.js` in the fixed-offset zone:
anchor a `TimePoint` to calendar day `z`. -/
def point2timestamp (z : Int) (p : TimePoint) : Int :=
  z * 86400000 + p.ms

/-- The resolver's result (`TimeInfo` in `trade.js`). -/
structure TimeInfo where
  tradeDate : Int
  timePeriods : List TimePeriod
  dayStart : Int
  dayEnd : Int
deriving DecidableEq, Repr

/-- Sorting relation used by `holidays.sort((a, b) => a.start - b.start)`. -/
def startLE (a b : TimePeriod) : Prop := a.start ≤ b.start

instance : DecidableRel startLE := fun a b => inferInstanceAs (Decidable (a.start ≤ b.start))

/-- Merge loop of `TradeCalendar.prototype.findHolidays` (`trade.js` 229-247):
`pre` is the interval under construction; an interval whose start is past
`pre.end` starts a new merged interval, otherwise `pre.end` is overwritten
with the interval's end (even when that end is smaller). -/
def mergeGo (pre : TimePeriod) : List TimePeriod → List TimePeriod
  | [] => [pre]
  | h :: t =>
    if pre.finish < h.start then pre :: mergeGo h t
    else mergeGo ⟨pre.start, h.finish⟩ t

/-- The fold of `findHolidays` over the sorted holiday list. -/
def mergeHolidays : List TimePeriod → List TimePeriod
  | [] => []
  | h :: t => mergeGo h t

/-- Pure content of `TradeCalendar.prototype.findHolidays` (`trade.js`
221-249): sort the raw intervals by start, then merge. -/
def normalizeHolidays (l : List TimePeriod) : List TimePeriod :=
  mergeHolidays (List.insertionSort startLE l)

/-- Function `findHolidays` with the external holiday source: the source may fail
(modelled as `Except`); on success its output is normalized. -/
def findHolidays {ε : Type} (finder : Int → Int → Except ε (List TimePeriod))
    (s e : Int) : Except ε (List TimePeriod) :=
  (finder s e).map normalizeHolidays

/-- The day-stepping loop of `TradeCalendar.prototype.timeInfo` (`trade.js`
172-211).  `acc` is the `timePeriods` array, which the source declares
outside the loop; `fuel` bounds the otherwise unbounded search
(`Except.ok none` = fuel exhausted).  Weekends are skipped; on a weekday the
session bounds are computed, holidays fetched and, per merged holiday,
`[sessionStart, holiday.start)` and/or `[holiday.end, sessionEnd)` emitted;
a day with no emitted period is skipped. -/
def timeInfoLoop {ε : Type} (cfg : CalendarConfig)
    (finder : Int → Int → Except ε (List TimePeriod)) :
    Nat → Int → Int → List TimePeriod → Except ε (Option TimeInfo)
  | 0, _, _, _ => .ok none
  | Nat.succ fuel, z, dir, acc =>
    if 0 < weekday z ∧ weekday z < 6 then
      let s := point2timestamp z cfg.start
      let e := point2timestamp z cfg.finish
      match findHolidays finder s e with
      | .error err => .error err
      | .ok holidays =>
        if holidays.isEmpty then
          .ok (some { tradeDate := yyyymmddOfDay z
                      timePeriods := acc ++ [⟨s, e⟩]
                      dayStart := z * 86400000
                      dayEnd := z * 86400000 + 86399999 })
        else
          let acc2 := holidays.foldl (fun ps h =>
            (ps ++ (if s < h.start then [⟨s, h.start⟩] else []))
              ++ (if h.finish < e then [⟨h.finish, e⟩] else [])) acc
          if acc2.isEmpty then timeInfoLoop cfg finder fuel (z + dir) dir acc2
          else
            .ok (some { tradeDate := yyyymmddOfDay z
                        timePeriods := acc2
                        dayStart := z * 86400000
                        dayEnd := z * 86400000 + 86399999 })
    else timeInfoLoop cfg finder fuel (z + dir) dir acc

/-- Model of `TradeCalendar.prototype.timeInfo`: normalize the direction
(`direction < 0 ? -1 : 1`) and run the day-stepping loop from `date`. -/
def timeInfo {ε : Type} (cfg : CalendarConfig)
    (finder : Int → Int → Except ε (List TimePeriod))
    (fuel : Nat) (date : Int) (direction : Int) : Except ε (Option TimeInfo) :=
  timeInfoLoop cfg finder fuel date (if direction < 0 then -1 else 1) []

/-- A period sequence is chronological and non-overlapping: each period
ends no later than the next one starts. -/
def Chronological (l : List TimePeriod) : Prop :=
  l.Chain' fun p q => p.finish ≤ q.start

/-- Executable check for `Chronological`. -/
def chronologicalB : List TimePeriod → Bool
  | [] => true
  | [_] => true
  | p :: q :: t => (decide (p.finish ≤ q.start)) && chronologicalB (q :: t)

theorem chronologicalB_iff : ∀ l, chronologicalB l = true ↔ Chronological l
  | [] => by simp [chronologicalB, Chronological]
  | [_] => by simp [chronologicalB, Chronological]
  | p :: q :: t => by
    rw [chronologicalB, Bool.and_eq_true, decide_eq_true_iff, chronologicalB_iff (q :: t)]
    simp [Chronological, List.chain'_cons]

instance (l : List TimePeriod) : Decidable (Chronological l) :=
  decidable_of_iff _ (chronologicalB_iff l)

end TradeCal

namespace TradeCal

/-! ## Concrete instances used by counterexamples and witnesses -/

/-- A calendar configuration with regular session 01:00–10:00 (pre/post
market fields present but immaterial to the resolver). -/
def cfgA : CalendarConfig :=
  { before := ⟨⟨0, 0, 0, 0⟩, ⟨0, 50, 0, 0⟩⟩
    start := ⟨1, 0, 0, 0⟩
    finish := ⟨10, 0, 0, 0⟩
    after := ⟨⟨11, 0, 0, 0⟩, ⟨12, 0, 0, 0⟩⟩ }

/-- A holiday source reporting two disjoint intra-session holidays on
1970-01-02 (02:00–03:00 and 04:00–05:00 local time). -/
def finder2 : Int → Int → Except Unit (List TimePeriod) := fun _ _ =>
  .ok [⟨86400000 + 7200000, 86400000 + 10800000⟩,
       ⟨86400000 + 14400000, 86400000 + 18000000⟩]

/-- The `TimeInfo` the resolver actually returns for `cfgA`/`finder2` on
1970-01-02 (day number 1, a Friday). -/
def cexInfo : TimeInfo :=
  { tradeDate := 19700102
    timePeriods := [⟨90000000, 93600000⟩, ⟨97200000, 122400000⟩,
                    ⟨90000000, 100800000⟩, ⟨104400000, 122400000⟩]
    dayStart := 86400000
    dayEnd := 172799999 }

/-- A holiday source whose second interval is nested strictly inside the
first. -/
def finder7 : Int → Int → Except Unit (List TimePeriod) := fun _ _ =>
  .ok [⟨0, 100⟩, ⟨10, 20⟩]

/-- A holiday source that always fails. -/
def finderErr : Int → Int → Except Unit (List TimePeriod) := fun _ _ => .error ()

/-- A holiday source with no holidays (`emptyHolidayFinder` in `trade.js`). -/
def finder0 : Int → Int → Except Unit (List TimePeriod) := fun _ _ => .ok []

/-! ## C1: period emission with several merged holidays -/

/-- C1, counterexample: with two disjoint merged holiday intervals inside the
session, `timeInfo` emits, per holiday, `[sessionStart, h.start)` and
`[h.end, sessionEnd)` — always measuring from the full session bounds — so
the returned `timePeriods` are neither in ascending start order (the third
period starts at 90000000, before the second period's 97200000) nor
non-overlapping (the second period [97200000, 122400000] and the third
[90000000, 100800000] intersect on (97200000, 100800000)). -/
theorem timeInfo_two_disjoint_holidays_overlap :
    timeInfo cfgA finder2 1 1 1 = Except.ok (some cexInfo) ∧
    [(⟨97200000, 122400000⟩ : TimePeriod), ⟨90000000, 100800000⟩] <:+: cexInfo.timePeriods ∧
    ¬ Chronological cexInfo.timePeriods ∧
    ((90000000 : Int) < 97200000 ∧ (90000000 : Int) < 122400000 ∧
      (97200000 : Int) < 100800000) :=
  ⟨rfl, by decide, by decide, by decide⟩

/-- Day-stepping loop invariant for the amended C1: starting from an empty
accumulator, if every normalized holiday answer has at most one interval
(each well-formed), any returned period list is chronological. -/
theorem timeInfoLoop_chronological {ε : Type} (cfg : CalendarConfig)
    (finder : Int → Int → Except ε (List TimePeriod))
    (H : ∀ s e l, findHolidays finder s e = .ok l →
      l.length ≤ 1 ∧ ∀ h ∈ l, h.start ≤ h.finish) :
    ∀ (fuel : Nat) (z dir : Int) (info : TimeInfo),
      timeInfoLoop cfg finder fuel z dir [] = .ok (some info) →
      Chronological info.timePeriods := by
  intro fuel
  induction fuel with
  | zero => intro z dir info h; simp [timeInfoLoop] at h
  | succ fuel ih =>
    intro z dir info h
    rw [timeInfoLoop] at h
    simp only [] at h
    split at h
    · rcases hfh : findHolidays finder (point2timestamp z cfg.start)
          (point2timestamp z cfg.finish) with err | holidays
      · simp only [hfh] at h
        exact absurd h (by simp)
      · simp only [hfh] at h
        obtain ⟨hlen, hwf⟩ := H _ _ holidays hfh
        by_cases hemp : holidays.isEmpty
        · rw [if_pos hemp] at h
          obtain rfl : _ = info := Option.some.inj (Except.ok.inj h)
          simp [Chronological]
        · rw [if_neg hemp] at h
          obtain ⟨hd, rfl⟩ : ∃ hd, holidays = [hd] := by
            match holidays, hlen with
            | [hd], _ => exact ⟨hd, rfl⟩
            | [], _ => simp at hemp
          have hwf1 : hd.start ≤ hd.finish := hwf hd (by simp)
          simp only [List.foldl_cons, List.foldl_nil, List.nil_append] at h
          by_cases h1 : point2timestamp z cfg.start < hd.start
          · by_cases h2 : hd.finish < point2timestamp z cfg.finish
            · rw [if_pos h1, if_pos h2, if_neg (by simp)] at h
              obtain rfl : _ = info := Option.some.inj (Except.ok.inj h)
              simpa [Chronological] using hwf1
            · rw [if_pos h1, if_neg h2, if_neg (by simp)] at h
              obtain rfl : _ = info := Option.some.inj (Except.ok.inj h)
              simp [Chronological]
          · by_cases h2 : hd.finish < point2timestamp z cfg.finish
            · rw [if_neg h1, if_pos h2, if_neg (by simp)] at h
              obtain rfl : _ = info := Option.some.inj (Except.ok.inj h)
              simp [Chronological]
            · rw [if_neg h1, if_neg h2, if_pos (by simp)] at h
              exact ih _ _ _ (by simpa using h)
    · exact ih _ _ _ h

/-- C1, amended: the `timePeriods` returned by `timeInfo` are chronological
and non-overlapping (each period ends no later than the next starts)
provided every holiday query yields at most one merged interval — e.g. no
holidays, or a single midday break.  (With two or more disjoint merged
holiday intervals inside the session the emitted periods overlap, see the
counterexample.) -/
theorem timeInfo_chronological {ε : Type} (cfg : CalendarConfig)
    (finder : Int → Int → Except ε (List TimePeriod))
    (H : ∀ s e l, findHolidays finder s e = .ok l →
      l.length ≤ 1 ∧ ∀ h ∈ l, h.start ≤ h.finish)
    (fuel : Nat) (date direction : Int) (info : TimeInfo)
    (h : timeInfo cfg finder fuel date direction = .ok (some info)) :
    Chronological info.timePeriods :=
  timeInfoLoop_chronological cfg finder H fuel date _ info h

/-- Witness for the amended C1 at a concrete input: the empty holiday source
on 1970-01-02 yields the single session period, which is chronological. -/
theorem timeInfo_chronological_witness :
    Chronological (TimeInfo.timePeriods
      { tradeDate := 19700102, timePeriods := [⟨90000000, 122400000⟩],
        dayStart := 86400000, dayEnd := 172799999 }) :=
  timeInfo_chronological cfgA finder0
    (fun s e l hl => by
      have h0 : l = [] := by
        have he : findHolidays finder0 s e = Except.ok [] := rfl
        rw [he] at hl
        exact (Except.ok.inj hl).symm
      subst h0
      simp)
    1 1 1 _ rfl

end TradeCal

namespace TradeCal

/-! ## C6: weekday, non-emptiness and error propagation of the resolver -/

/-- A failing `findHolidays` answer comes from a failing holiday source
(`Except.map` preserves the error). -/
theorem findHolidays_error {ε : Type} (finder : Int → Int → Except ε (List TimePeriod))
    (s e : Int) (err : ε) (h : findHolidays finder s e = .error err) :
    finder s e = .error err := by
  unfold findHolidays at h
  cases hf : finder s e with
  | error e2 => rw [hf] at h; simpa [Except.map] using h
  | ok l => rw [hf] at h; exact absurd h (by simp [Except.map])

/-- Loop part of C6: any success has non-empty periods and a non-weekend
day; any error is a holiday-source error. -/
theorem timeInfoLoop_spec {ε : Type} (cfg : CalendarConfig)
    (finder : Int → Int → Except ε (List TimePeriod)) :
    ∀ (fuel : Nat) (z dir : Int) (acc : List TimePeriod),
      (∀ info, timeInfoLoop cfg finder fuel z dir acc = .ok (some info) →
        info.timePeriods ≠ [] ∧
        ∃ d, info.tradeDate = yyyymmddOfDay d ∧ 0 < weekday d ∧ weekday d < 6) ∧
      (∀ err, timeInfoLoop cfg finder fuel z dir acc = .error err →
        ∃ s e, finder s e = .error err) := by
  intro fuel
  induction fuel with
  | zero =>
    intro z dir acc
    refine ⟨fun info h => ?_, fun err h => ?_⟩ <;> simp [timeInfoLoop] at h
  | succ fuel ih =>
    intro z dir acc
    constructor
    · intro info h
      rw [timeInfoLoop] at h
      simp only [] at h
      split at h
      · rename_i hw
        rcases hfh : findHolidays finder (point2timestamp z cfg.start)
            (point2timestamp z cfg.finish) with err | holidays
        · simp only [hfh] at h
          exact absurd h (by simp)
        · simp only [hfh] at h
          split at h
          · obtain rfl : _ = info := Option.some.inj (Except.ok.inj h)
            exact ⟨by simp, z, rfl, hw.1, hw.2⟩
          · split at h
            · exact ((ih (z + dir) dir _).1) info h
            · rename_i hne
              obtain rfl : _ = info := Option.some.inj (Except.ok.inj h)
              exact ⟨by simpa using hne, z, rfl, hw.1, hw.2⟩
      · exact ((ih (z + dir) dir acc).1) info h
    · intro err h
      rw [timeInfoLoop] at h
      simp only [] at h
      split at h
      · rcases hfh : findHolidays finder (point2timestamp z cfg.start)
            (point2timestamp z cfg.finish) with err2 | holidays
        · simp only [hfh] at h
          obtain rfl : err2 = err := Except.error.inj h
          exact ⟨_, _, findHolidays_error finder _ _ _ hfh⟩
        · simp only [hfh] at h
          split at h
          · exact absurd h (by simp)
          · split at h
            · exact ((ih (z + dir) dir _).2) err h
            · exact absurd h (by simp)
      · exact ((ih (z + dir) dir acc).2) err h

/-- C6: every `TimeInfo` the resolver returns has a trade date on a
non-weekend day (moment weekday strictly between 0 = Sunday and
6 = Saturday) and a non-empty `timePeriods`; and `timeInfo` fails exactly
by propagating a holiday-source failure (no local retry). -/
theorem timeInfo_weekday_nonempty_error {ε : Type} (cfg : CalendarConfig)
    (finder : Int → Int → Except ε (List TimePeriod)) (fuel : Nat) (date direction : Int) :
    (∀ info, timeInfo cfg finder fuel date direction = .ok (some info) →
      info.timePeriods ≠ [] ∧
      ∃ d, info.tradeDate = yyyymmddOfDay d ∧ 0 < weekday d ∧ weekday d < 6) ∧
    (∀ err, timeInfo cfg finder fuel date direction = .error err →
      ∃ s e, finder s e = .error err) :=
  timeInfoLoop_spec cfg finder fuel date _ []

/-- The `TimeInfo` returned for `cfgA` with no holidays on 1970-01-02. -/
def infoA : TimeInfo :=
  { tradeDate := 19700102
    timePeriods := [⟨90000000, 122400000⟩]
    dayStart := 86400000
    dayEnd := 172799999 }

/-- Witness for C6 at concrete inputs: the holiday-free resolution of
1970-01-02 and the failing holiday source. -/
theorem timeInfo_weekday_nonempty_error_witness :
    (infoA.timePeriods ≠ [] ∧
      ∃ d, infoA.tradeDate = yyyymmddOfDay d ∧ 0 < weekday d ∧ weekday d < 6) ∧
    (∃ s e, finderErr s e = Except.error ()) :=
  ⟨(timeInfo_weekday_nonempty_error cfgA finder0 1 1 1).1 infoA rfl,
   (timeInfo_weekday_nonempty_error cfgA finderErr 1 1 1).2 () rfl⟩

/-! ## C7: merging an interval nested inside the previous one loses coverage -/

/-- C7: on input `[{start: 0, end: 100}, {start: 10, end: 20}]` the merge
loop overwrites the merged interval's end with the nested interval's
smaller end, returning `[{start: 0, end: 20}]`; the instant 50, covered by
the first input interval, is covered by no normalized interval. -/
theorem findHolidays_nested_interval_loss :
    findHolidays finder7 0 100 = Except.ok [⟨0, 20⟩] ∧
    normalizeHolidays [⟨0, 100⟩, ⟨10, 20⟩] = [⟨0, 20⟩] ∧
    ((0 : Int) ≤ 50 ∧ (50 : Int) ≤ 100) ∧
    (∀ h ∈ normalizeHolidays [⟨0, 100⟩, ⟨10, 20⟩], ¬(h.start ≤ 50 ∧ 50 ≤ h.finish)) :=
  ⟨rfl, rfl, by decide, by decide⟩

end TradeCal

namespace TradeCal

/-! ## C8: normalization produces a disjoint ascending sequence; idempotence -/

instance : IsTotal TimePeriod startLE := ⟨fun a b => le_total a.start b.start⟩

instance : IsTrans TimePeriod startLE := ⟨fun _ _ _ => le_trans⟩

/-- The merge loop keeps the pending interval's start: its output always
begins with an interval starting at `pre.start`. -/
theorem mergeGo_head_start : ∀ (l : List TimePeriod) (pre : TimePeriod),
    ∃ f t, mergeGo pre l = ⟨pre.start, f⟩ :: t
  | [], pre => ⟨pre.finish, [], rfl⟩
  | h :: t, pre => by
    rw [mergeGo]
    split
    · exact ⟨pre.finish, mergeGo h t, rfl⟩
    · exact mergeGo_head_start t ⟨pre.start, h.finish⟩

/-- Adjacent intervals in the merge loop's output are separated: each one
ends strictly before the next starts (an interval is pushed only when its
start exceeds the pending interval's end). -/
theorem mergeGo_chain' : ∀ (l : List TimePeriod) (pre : TimePeriod),
    (mergeGo pre l).Chain' fun a b => a.finish < b.start
  | [], _ => by simp [mergeGo]
  | h :: t, pre => by
    rw [mergeGo]
    split
    · rename_i hc
      obtain ⟨f, t2, heq⟩ := mergeGo_head_start t h
      rw [heq]
      exact List.chain'_cons.mpr ⟨hc, heq ▸ mergeGo_chain' t h⟩
    · exact mergeGo_chain' t ⟨pre.start, h.finish⟩

/-- With well-formed, start-sorted input dominating the pending interval's
start, every merged interval is well-formed. -/
theorem mergeGo_wf : ∀ (l : List TimePeriod) (pre : TimePeriod),
    pre.start ≤ pre.finish → (∀ h ∈ l, h.start ≤ h.finish) →
    (∀ h ∈ l, pre.start ≤ h.start) → l.Sorted startLE →
    ∀ q ∈ mergeGo pre l, q.start ≤ q.finish
  | [], pre, hpre, _, _, _ => by
    intro q hq
    rw [mergeGo] at hq
    obtain rfl : q = pre := by simpa using hq
    exact hpre
  | h :: t, pre, hpre, hwf, hdom, hsort => by
    intro q hq
    rw [mergeGo] at hq
    split at hq
    · rcases List.mem_cons.mp hq with rfl | hq2
      · exact hpre
      · exact mergeGo_wf t h (hwf h (by simp)) (fun x hx => hwf x (by simp [hx]))
          (fun x hx => (List.sorted_cons.mp hsort).1 x hx)
          (List.sorted_cons.mp hsort).2 q hq2
    · exact mergeGo_wf t ⟨pre.start, h.finish⟩
        (le_trans (hdom h (by simp)) (hwf h (by simp)))
        (fun x hx => hwf x (by simp [hx]))
        (fun x hx => le_trans (hdom h (by simp)) ((List.sorted_cons.mp hsort).1 x hx))
        (List.sorted_cons.mp hsort).2 q hq
  
/-- In a separated chain of well-formed intervals, the head ends strictly
before every later interval starts. -/
theorem chain'_head_lt : ∀ (t : List TimePeriod) (a : TimePeriod),
    (a :: t).Chain' (fun x y => x.finish < y.start) →
    (∀ x ∈ t, x.start ≤ x.finish) → ∀ b ∈ t, a.finish < b.start
  | [], _, _, _ => by simp
  | c :: t2, a, hch, hwf => by
    intro b hb
    obtain ⟨hac, hct⟩ := List.chain'_cons.mp hch
    rcases List.mem_cons.mp hb with rfl | hb2
    · exact hac
    · exact lt_of_le_of_lt (le_trans (le_of_lt hac) (hwf c (by simp)))
        (chain'_head_lt t2 c hct (fun x hx => hwf x (by simp [hx])) b hb2)

/-- A separated chain of well-formed intervals is pairwise disjoint and
strictly ascending by start. -/
theorem pairwise_of_chain'_wf : ∀ (l : List TimePeriod),
    l.Chain' (fun x y => x.finish < y.start) → (∀ x ∈ l, x.start ≤ x.finish) →
    l.Pairwise fun a b => a.start < b.start ∧ a.finish < b.start
  | [], _, _ => List.Pairwise.nil
  | a :: t, hch, hwf => by
    refine List.pairwise_cons.mpr ⟨fun b hb => ?_, ?_⟩
    · have hfb : a.finish < b.start :=
        chain'_head_lt t a hch (fun x hx => hwf x (by simp [hx])) b hb
      exact ⟨lt_of_le_of_lt (hwf a (by simp)) hfb, hfb⟩
    · exact pairwise_of_chain'_wf t ((List.chain'_cons'.mp hch).2)
        (fun x hx => hwf x (by simp [hx]))

/-- On an already separated list the merge loop changes nothing. -/
theorem mergeGo_eq_self : ∀ (t : List TimePeriod) (pre : TimePeriod),
    (pre :: t).Chain' (fun a b => a.finish < b.start) → mergeGo pre t = pre :: t
  | [], _, _ => rfl
  | h :: t2, pre, hch => by
    obtain ⟨hph, hht⟩ := List.chain'_cons.mp hch
    rw [mergeGo, if_pos hph, mergeGo_eq_self t2 h hht]

/-- C8: `findHolidays` normalization (sort by start, merge any interval
whose start is at or before the pending merged interval's end) yields a
pairwise-disjoint sequence strictly ascending by start whenever the raw
intervals are well-formed; and it is idempotent: on a start-sorted,
separated sequence it returns the sequence unchanged. -/
theorem findHolidays_normalization (l : List TimePeriod) :
    ((∀ h ∈ l, h.start ≤ h.finish) →
      (normalizeHolidays l).Pairwise fun a b => a.start < b.start ∧ a.finish < b.start) ∧
    (l.Sorted startLE → l.Chain' (fun a b => a.finish < b.start) →
      normalizeHolidays l = l) := by
  constructor
  · intro hwf
    unfold normalizeHolidays
    cases hs : List.insertionSort startLE l with
    | nil => simp [mergeHolidays]
    | cons a t =>
      rw [mergeHolidays]
      have hsorted : (a :: t).Sorted startLE := hs ▸ List.sorted_insertionSort startLE l
      have hmem : ∀ x ∈ a :: t, x.start ≤ x.finish := fun x hx =>
        hwf x ((List.perm_insertionSort startLE l).mem_iff.mp (hs ▸ hx))
      exact pairwise_of_chain'_wf _ (mergeGo_chain' t a)
        (mergeGo_wf t a (hmem a (by simp)) (fun x hx => hmem x (by simp [hx]))
          (fun x hx => (List.sorted_cons.mp hsorted).1 x hx)
          (List.sorted_cons.mp hsorted).2)
  · intro hsort hchain
    unfold normalizeHolidays
    rw [List.Sorted.insertionSort_eq hsort]
    cases l with
    | nil => rfl
    | cons a t => exact mergeGo_eq_self t a hchain

/-- Witness for C8 at a concrete input: a well-formed, sorted, separated
two-interval list is reported disjoint/ascending and is a fixed point of
the normalization. -/
theorem findHolidays_normalization_witness :
    (normalizeHolidays [⟨0, 5⟩, ⟨10, 20⟩]).Pairwise
      (fun a b => a.start < b.start ∧ a.finish < b.start) ∧
    normalizeHolidays [⟨0, 5⟩, ⟨10, 20⟩] = [⟨0, 5⟩, ⟨10, 20⟩] :=
  ⟨(findHolidays_normalization [⟨0, 5⟩, ⟨10, 20⟩]).1 (by simp)
,
   (findHolidays_normalization [⟨0, 5⟩, ⟨10, 20⟩]).2
     (by simp [List.sorted_cons, startLE]) (by simp [List.chain'_cons])⟩

end TradeCal

namespace TradeCal

/-! ## Virtual time transform (`manager.js` VirtualCalendar) over exact ℚ -/

/-- Anchoring state set up by `VirtualCalendar.prototype.reload`:
`_realBase`, `_virtualBase`, `_timeRatio`. -/
structure VirtualState where
  realBase : ℚ
  virtualBase : ℚ
  timeRatio : ℚ
deriving DecidableEq

/-- Ratio `_timeRatio = vc.oneDay / (24 * 60 * 60 * 1000)`. -/
def timeRatioOf (oneDay : ℚ) : ℚ := oneDay / (24 * 60 * 60 * 1000)

namespace VirtualCalendar

/-- Model of `VirtualCalendar.prototype.timestamp` (`manager.js` 289-292): a falsy
(zero) argument is first replaced by `Date.now()` (the `now` parameter),
then the forward transform `(time - realBase) / timeRatio + virtualBase`
is applied. -/
def timestamp (v : VirtualState) (now t : ℚ) : ℚ :=
  ((if t = 0 then now else t) - v.realBase) / v.timeRatio + v.virtualBase

/-- Model of `VirtualCalendar.prototype.realStamp` (`manager.js` 299-302): falsy
substitution, then the inverse transform
`(time - virtualBase) * timeRatio + realBase`. -/
def realStamp (v : VirtualState) (now t : ℚ) : ℚ :=
  ((if t = 0 then now else t) - v.virtualBase) * v.timeRatio + v.realBase

end VirtualCalendar

namespace TradeCalendar

/-- Model of `TradeCalendar.prototype.timestamp` (`trade.js` 112-114) on a numeric
argument: the identity, except that a zero (falsy) argument is replaced by
`Date.now()`. -/
def timestamp (now t : ℚ) : ℚ := if t = 0 then now else t

/-- Model of `TradeCalendar.prototype.realStamp` (`trade.js` 257-259): same shape. -/
def realStamp (now t : ℚ) : ℚ := if t = 0 then now else t

end TradeCalendar

/-! ## C5: virtual round trip -/

/-- C5, counterexample: with `realBase = virtualBase = 100`, ratio 1
(i.e. `oneDay = 86400000`, an exactly rational ratio) and current clock 50,
the round trip at the real timestamp 0 returns 50, not 0: because a falsy
argument is replaced by `Date.now()`, `realStamp(timestamp(t)) == t` fails
at `t = 0` even under exact rational arithmetic. -/
theorem virtual_roundtrip_fails_at_zero :
    VirtualCalendar.realStamp ⟨100, 100, 1⟩ 50
        (VirtualCalendar.timestamp ⟨100, 100, 1⟩ 50 0) = 50 ∧
    (50 : ℚ) ≠ 0 ∧ timeRatioOf 86400000 = 1 := by
  refine ⟨?_, by norm_num, by norm_num [timeRatioOf]⟩
  norm_num [VirtualCalendar.timestamp, VirtualCalendar.realStamp]

/-- Inverse-after-forward cancellation for the virtual transform, away
from the falsy-substitution cases. -/
theorem roundtrip_aux (v : VirtualState) (now t : ℚ)
    (hr : v.timeRatio ≠ 0) (ht : t ≠ 0)
    (hi : VirtualCalendar.timestamp v now t ≠ 0) :
    VirtualCalendar.realStamp v now (VirtualCalendar.timestamp v now t) = t := by
  have h1 : VirtualCalendar.timestamp v now t =
      (t - v.realBase) / v.timeRatio + v.virtualBase := by
    rw [VirtualCalendar.timestamp, if_neg ht]
  rw [VirtualCalendar.realStamp, if_neg hi, h1]
  field_simp
  ring

/-- C5, amended: the virtual transform round-trips exactly (over exact
rational arithmetic) for every nonzero real `t` whose forward image is
nonzero, provided the ratio is nonzero; at `t = 0`, or when the forward
image is 0, the falsy-substitution breaks the identity (see the
counterexample). -/
theorem virtual_roundtrip (v : VirtualState) (now t : ℚ)
    (hr : v.timeRatio ≠ 0) (ht : t ≠ 0)
    (hi : VirtualCalendar.timestamp v now t ≠ 0) :
    VirtualCalendar.realStamp v now (VirtualCalendar.timestamp v now t) = t :=
  roundtrip_aux v now t hr ht hi

/-- Witness for the amended C5 at concrete values: ratio 1, anchors
`(0, 1)`, `t = 7` (forward image 8). -/
theorem virtual_roundtrip_witness :
    VirtualCalendar.realStamp ⟨0, 1, 1⟩ 50 (VirtualCalendar.timestamp ⟨0, 1, 1⟩ 50 7) = 7 :=
  virtual_roundtrip ⟨0, 1, 1⟩ 50 7 (by norm_num) (by norm_num)
    (by norm_num [VirtualCalendar.timestamp])

/-! ## C10: falsy zero arguments use the current clock -/

/-- C10: all four stamp functions substitute the current clock for a zero
(falsy) argument, so they do not act as total linear maps at 0: the round
trip at input 0 returns `now` (hence fails whenever `now ≠ 0`), and at a
nonzero input whose forward image is 0 the inverse is applied to `now`
instead of to the image. -/
theorem falsy_zero_uses_now (v : VirtualState) (now t : ℚ) (hr : v.timeRatio ≠ 0) :
    TradeCalendar.timestamp now 0 = now ∧
    TradeCalendar.realStamp now 0 = now ∧
    VirtualCalendar.timestamp v now 0 = VirtualCalendar.timestamp v now now ∧
    VirtualCalendar.realStamp v now 0 = VirtualCalendar.realStamp v now now ∧
    (now ≠ 0 → VirtualCalendar.timestamp v now now ≠ 0 →
      VirtualCalendar.realStamp v now (VirtualCalendar.timestamp v now 0) = now ∧
      VirtualCalendar.realStamp v now (VirtualCalendar.timestamp v now 0) ≠ 0) ∧
    (t ≠ 0 → VirtualCalendar.timestamp v now t = 0 →
      VirtualCalendar.realStamp v now (VirtualCalendar.timestamp v now t) =
        VirtualCalendar.realStamp v now now) := by
  refine ⟨by simp [TradeCalendar.timestamp], by simp [TradeCalendar.realStamp], ?_, ?_, ?_, ?_⟩
  · by_cases hn : now = 0 <;> simp [VirtualCalendar.timestamp, hn]
  · by_cases hn : now = 0 <;> simp [VirtualCalendar.realStamp, hn]
  · intro hn hnz
    have h0 : VirtualCalendar.timestamp v now 0 = VirtualCalendar.timestamp v now now := by
      by_cases hx : now = 0 <;> simp [VirtualCalendar.timestamp, hx]
    rw [h0]
    have hrt : VirtualCalendar.realStamp v now (VirtualCalendar.timestamp v now now) = now :=
      roundtrip_aux v now now hr hn hnz
    exact ⟨hrt, by rw [hrt]; exact hn⟩
  · intro ht himg
    rw [himg, VirtualCalendar.realStamp, if_pos rfl]
    by_cases hx : now = 0 <;> simp [VirtualCalendar.realStamp, hx]

/-- Witness for C10 at concrete values: anchors `(0, 10)`, ratio 1,
clock 50, input `t = -10` (whose forward image is 0). -/
theorem falsy_zero_uses_now_witness :
    VirtualCalendar.realStamp ⟨0, 10, 1⟩ 50 (VirtualCalendar.timestamp ⟨0, 10, 1⟩ 50 0) = 50 ∧
    VirtualCalendar.realStamp ⟨0, 10, 1⟩ 50 (VirtualCalendar.timestamp ⟨0, 10, 1⟩ 50 (-10)) =
      VirtualCalendar.realStamp ⟨0, 10, 1⟩ 50 50 := by
  have h := falsy_zero_uses_now ⟨0, 10, 1⟩ 50 (-10) (by norm_num)
  exact ⟨(h.2.2.2.2.1 (by norm_num) (by norm_num [VirtualCalendar.timestamp])).1,
         h.2.2.2.2.2 (by norm_num) (by norm_num [VirtualCalendar.timestamp])⟩

end TradeCal

namespace TradeCal

/-! ## Calendar manager (`src/unnamed/part_001`) -/

/-- Lifecycle events emitted by the manager. -/
inductive Event
  | tradeDateChange (newDate preDate nextDate : Int)
  | systemPeriodChange (period : TimePeriod) (remaining : List TimePeriod)
  | systemTimeStart (period : TimePeriod)
  | systemTimeEnd (period : TimePeriod)
  | marketOpen (tradeDate : Int)
  | marketClose (tradeDate : Int)
  | afterMarketClose (tradeDate : Int)
deriving DecidableEq, Repr

/-- Per-calendar mutable state owned by the manager (the fields the manager
stores on the calendar object).  A timer-handle slot is `some target` when
the timer is armed (with its target instant or, for the retry timer, its
delay) and `none` when no armed timer is held. -/
structure Entry where
  tradeDate : Int
  preTradeDate : Int
  nextTradeDate : Int
  dayStart : Int
  dayEnd : Int
  systemPeriods : List TimePeriod
  systemPeriod : Option TimePeriod
  timeInfoHandler : Option Int
  startTimeHandler : Option Int
  endTimeHandler : Option Int
  marketOpenTimeHandler : Option Int
  marketCloseTimeHandler : Option Int
  timeHandler : Option Int
deriving DecidableEq, Repr

/-- The calendar object as the manager consumes it: resolution
(`realTimeInfo`/`getTimeInfo`, anchored on a date with a direction) and the
boundary/conversion queries are oracles wrapping the `trade.js` resolver,
the holiday source and the timezone library. -/
structure CalendarModel (ε : Type) where
  resolve : Int → Int → Except ε TimeInfo
  realAfterMarketEnd : Int → Int
  afterMarketEnd : Int → Int
  timestamp : Int → Int

/-- Model of `CalendarManager.changeSystemPeriod` (`part_001` 144-167): if periods
remain, shift the first one into `systemPeriod`, emit
`system-period-change`, cancel any previous period timers and arm the
period start/end timers at the period bounds. -/
def changeSystemPeriod (e : Entry) : Entry × List Event :=
  match e.systemPeriods with
  | [] => (e, [])
  | p :: rest =>
    ({ e with systemPeriod := some p
              systemPeriods := rest
              startTimeHandler := some p.start
              endTimeHandler := some p.finish },
     [Event.systemPeriodChange p rest])

/-- The trade-date-change step of `setTimeInfo` (`part_001` 88-104),
returning the (possibly partially) updated entry, the emitted events and
`some err` when one of the neighbour resolutions failed.  As in the JS
(which mutates `calendar` in place), when `tradeDate > 0` the
`preTradeDate` assignment happens before the fallible next-day resolution. -/
def stepTradeDateChange {ε : Type} (cal : CalendarModel ε) (e : Entry) (ti : TimeInfo) :
    Entry × List Event × Option ε :=
  if e.tradeDate = ti.tradeDate then (e, [], none)
  else
    match (if e.tradeDate > 0
           then Except.ok { e with preTradeDate := e.tradeDate }
           else (cal.resolve (addDaysYYYYMMDD ti.tradeDate (-1)) (-1)).map
                  fun p => { e with preTradeDate := p.tradeDate }) with
    | .error err => (e, [], some err)
    | .ok ea =>
      match cal.resolve (addDaysYYYYMMDD ti.tradeDate 1) 1 with
      | .error err => (ea, [], some err)
      | .ok nd =>
        ({ ea with nextTradeDate := nd.tradeDate
                   tradeDate := ti.tradeDate
                   dayStart := ti.dayStart
                   dayEnd := ti.dayEnd },
         [Event.tradeDateChange ti.tradeDate ea.preTradeDate nd.tradeDate], none)

/-- Outcome of the body of one resolution pass, before error handling. -/
inductive PassCore
  | recurse (anchor : Int)
  | success (events : List Event)
deriving DecidableEq, Repr

/-- The `try` body of `CalendarManager.setTimeInfo` (`part_001` 76-126):
resolve the anchor; if the current instant is already past the resolved
day's after-market-close boundary return an immediate recursion on the
next calendar day; otherwise run the trade-date-change step, replace the
pending-period queue, invoke the period-advance routine, arm the
market-open timer when `now < marketClose` (and both boundary stamps are
truthy), always arm the market-close timer, and re-arm the terminal
after-market-close timer.  The entry is threaded explicitly because the JS
mutates `calendar` in place even on a path that later throws. -/
def passBody {ε : Type} (cal : CalendarModel ε) (now : Int) (e : Entry) (start : Int) :
    Entry × Except ε PassCore :=
  match cal.resolve start 1 with
  | .error err => (e, .error err)
  | .ok ti =>
    if now > cal.realAfterMarketEnd ti.tradeDate then
      (e, .ok (.recurse (addDaysYYYYMMDD ti.tradeDate 1)))
    else
      match stepTradeDateChange cal e ti with
      | (e1, _, some err) => (e1, .error err)
      | (e1, evs1, none) =>
        let r3 := changeSystemPeriod { e1 with systemPeriods := ti.timePeriods }
        let e4 :=
          match ti.timePeriods.head?.map TimePeriod.start,
                ti.timePeriods.getLast?.map TimePeriod.finish with
          | some mo, some mc =>
            if mo ≠ 0 ∧ mc ≠ 0 then
              let ea := if now < mc
                then { r3.1 with marketOpenTimeHandler := some (cal.timestamp mo) }
                else r3.1
              { ea with marketCloseTimeHandler := some (cal.timestamp mc) }
            else r3.1
          | _, _ => r3.1
        ({ e4 with timeInfoHandler := some (cal.afterMarketEnd ti.tradeDate) },
         .ok (.success (evs1 ++ r3.2)))

/-- Observable result of one `setTimeInfo` pass. -/
inductive PassResult (ε : Type)
  | recurse (e : Entry) (anchor : Int) (retry : Bool)
  | done (e : Entry) (events : List Event)
  | retryWait (e : Entry) (delayMs : Int) (anchor : Int) (retry : Bool)
  | thrown (e : Entry) (err : ε)
deriving DecidableEq, Repr

/-- One pass of `CalendarManager.setTimeInfo` (`part_001` 70-142): run the
body; on error, when the `retry` argument is truthy, clear the terminal
timer and arm the flat 10-second retry timer re-invoking the pass with the
same `(start, retry)` arguments, otherwise re-throw. -/
def setTimeInfoPass {ε : Type} (cal : CalendarModel ε) (now : Int) (e : Entry)
    (start : Int) (retry : Bool) : PassResult ε :=
  match passBody cal now e start with
  | (e2, .ok (.recurse anchor)) => .recurse e2 anchor retry
  | (e2, .ok (.success evs)) => .done e2 evs
  | (e2, .error err) =>
    if retry then
      .retryWait { e2 with timeInfoHandler := none, timeHandler := some 10000 } 10000 start retry
    else .thrown e2 err

/-- The terminal (after-market-close) timer callback (`part_001` 122-126):
emit `after-market-close`, then call `setTimeInfo(name, nextDay)` with the
anchor advanced one calendar day and no third argument, i.e. a falsy
`retry` flag. -/
def afterMarketCloseFire {ε : Type} (cal : CalendarModel ε) (now : Int) (e : Entry) :
    List Event × PassResult ε :=
  ([Event.afterMarketClose e.tradeDate],
   setTimeInfoPass cal now e (addDaysYYYYMMDD e.tradeDate 1) false)

/-- Model of `CalendarManager.stop` on one entry (`part_001` 49-62): clear the
terminal timer and the period start/end timers (the only three handles the
source cancels). -/
def stopEntry (e : Entry) : Entry :=
  { e with timeInfoHandler := none, startTimeHandler := none, endTimeHandler := none }

/-- Model of `CalendarManager.stop(name)` on the manager's calendar table: no-op
when the name is unknown, otherwise clear that entry's three handles. -/
def stop (m : List (String × Entry)) (name : String) : List (String × Entry) :=
  m.map fun p => if p.1 = name then (p.1, stopEntry p.2) else p

/-- Default-initialized entry (`tradeDate = 0` as in the `TradeCalendar`
constructor; nothing armed). -/
def entry0 : Entry :=
  { tradeDate := 0, preTradeDate := 0, nextTradeDate := 0, dayStart := 0, dayEnd := 0,
    systemPeriods := [], systemPeriod := none,
    timeInfoHandler := none, startTimeHandler := none, endTimeHandler := none,
    marketOpenTimeHandler := none, marketCloseTimeHandler := none, timeHandler := none }

end TradeCal

namespace TradeCal

/-! ## Concrete manager fixtures -/

/-- A resolved day: trade date 2020-01-06 with one period `[100, 200]`. -/
def ti4 : TimeInfo := ⟨20200106, [⟨100, 200⟩], 10, 20⟩

/-- A calendar whose resolution always yields `ti4`, with after-market-close
boundary 300 and identity real/calendar conversion. -/
def cal4 : CalendarModel Unit := ⟨fun _ _ => .ok ti4, fun _ => 300, fun _ => 300, fun x => x⟩

/-- A calendar whose resolution always fails (unreachable holiday source). -/
def calErr : CalendarModel Unit := ⟨fun _ _ => .error (), fun _ => 0, fun _ => 0, fun x => x⟩

/-- An entry already on trade date 2020-01-06. -/
def e4 : Entry := { entry0 with tradeDate := 20200106 }

/-! ## C9: same-tick catch-up when past after-market-close -/

/-- C9: if the resolution succeeds and the current real instant is already
(strictly) past the resolved trade date's after-market-close boundary, the
pass returns an immediate same-tick recursion whose anchor is the next
calendar day and whose retry flag is unchanged; the entry it hands on is
the untouched input entry — no timer is armed, no state mutated and no
event emitted for the skipped day — and no error is raised. -/
theorem setTimeInfo_catchup {ε : Type} (cal : CalendarModel ε) (now : Int) (e : Entry)
    (start : Int) (retry : Bool) (ti : TimeInfo)
    (h1 : cal.resolve start 1 = .ok ti)
    (h2 : now > cal.realAfterMarketEnd ti.tradeDate) :
    setTimeInfoPass cal now e start retry =
      .recurse e (addDaysYYYYMMDD ti.tradeDate 1) retry := by
  simp [setTimeInfoPass, passBody, h1, if_pos h2]

/-- Witness for C9: `cal4` at clock 400 (past the boundary 300) recurses on
2020-01-07 with the entry untouched. -/
theorem setTimeInfo_catchup_witness :
    setTimeInfoPass cal4 400 e4 0 true = .recurse e4 (addDaysYYYYMMDD 20200106 1) true :=
  setTimeInfo_catchup cal4 400 e4 0 true ti4 rfl (by decide)

/-! ## C2: error handling of a resolution pass -/

/-- C2, counterexample: the pass triggered by the after-market-close
terminal timer invokes `setTimeInfo` with only two arguments, so its
`retry` flag is falsy; when the holiday source is unreachable that
scheduled pass throws (`PassResult.thrown`) — it does not cancel-and-rearm
into a 10-second retry (`PassResult.retryWait`), and no retry timer is
armed (`timeHandler` stays `none`). -/
theorem afterMarketClose_error_not_retried :
    afterMarketCloseFire calErr 0 e4 =
      ([Event.afterMarketClose 20200106], PassResult.thrown e4 ()) ∧
    e4.timeHandler = none ∧
    afterMarketCloseFire calErr 0 e4 ≠
      ([Event.afterMarketClose 20200106],
        PassResult.retryWait { e4 with timeInfoHandler := none, timeHandler := some 10000 }
          10000 (addDaysYYYYMMDD 20200106 1) false) :=
  ⟨rfl, rfl, by decide⟩

/-- C2, amended: when the pass body raises, the behaviour is decided by the
explicit `retry` argument alone — truthy: cancel the terminal timer and arm
the flat 10-second retry timer re-invoking the pass with the same
arguments; falsy: the error is re-thrown.  The initial call from `start`
and the after-market-close-timer pass both pass a falsy `retry` (the
terminal-timer callback supplies no third argument), so their errors
propagate. -/
theorem setTimeInfo_error_retry {ε : Type} (cal : CalendarModel ε) (now : Int)
    (e e2 : Entry) (start : Int) (err : ε)
    (h : passBody cal now e start = (e2, .error err)) :
    setTimeInfoPass cal now e start true =
      .retryWait { e2 with timeInfoHandler := none, timeHandler := some 10000 }
        10000 start true ∧
    setTimeInfoPass cal now e start false = .thrown e2 err := by
  constructor <;> simp [setTimeInfoPass, h]

/-- Witness for the amended C2 at the failing calendar. -/
theorem setTimeInfo_error_retry_witness :
    setTimeInfoPass calErr 0 e4 0 true =
      .retryWait { e4 with timeInfoHandler := none, timeHandler := some 10000 } 10000 0 true ∧
    setTimeInfoPass calErr 0 e4 0 false = .thrown e4 () :=
  setTimeInfo_error_retry calErr 0 e4 e4 0 () rfl

end TradeCal

namespace TradeCal

/-! ## C4: market-open/close timer arming -/

/-- C4, counterexample: at clock 150 — at or past the first period's start
100 but before the market close 200 — the successful pass still arms the
market-open timer (`marketOpenTimeHandler = some 100`), because the
source's guard is `now < marketClose`, not `now < marketOpen`. -/
theorem setTimeInfo_opens_after_open_passed :
    (100 : Int) ≤ 150 ∧
    setTimeInfoPass cal4 150 e4 0 false = .done
      { e4 with
          systemPeriods := []
          systemPeriod := some ⟨100, 200⟩
          startTimeHandler := some 100
          endTimeHandler := some 200
          marketOpenTimeHandler := some 100
          marketCloseTimeHandler := some 200
          timeInfoHandler := some 300 }
      [Event.systemPeriodChange ⟨100, 200⟩ []] :=
  ⟨by decide, rfl⟩

/-- C4, amended: in a successful pass (no trade-date change, non-empty
periods with truthy boundary stamps, not past after-market-close), the
market-close timer is always armed, while the market-open timer is armed
iff the current instant is before the market-close boundary — so it can be
armed even when the market-open time has already passed. -/
theorem setTimeInfo_market_timers {ε : Type} (cal : CalendarModel ε) (now : Int) (e : Entry)
    (start : Int) (retry : Bool) (ti : TimeInfo) (p q : TimePeriod) (rest : List TimePeriod)
    (h1 : cal.resolve start 1 = .ok ti)
    (h2 : ¬ now > cal.realAfterMarketEnd ti.tradeDate)
    (h3 : e.tradeDate = ti.tradeDate)
    (h4 : ti.timePeriods = p :: rest)
    (h5 : ti.timePeriods.getLast? = some q)
    (h6 : p.start ≠ 0) (h7 : q.finish ≠ 0) :
    setTimeInfoPass cal now e start retry = .done
      { e with
          systemPeriods := rest
          systemPeriod := some p
          startTimeHandler := some p.start
          endTimeHandler := some p.finish
          marketOpenTimeHandler :=
            if now < q.finish then some (cal.timestamp p.start)
            else e.marketOpenTimeHandler
          marketCloseTimeHandler := some (cal.timestamp q.finish)
          timeInfoHandler := some (cal.afterMarketEnd ti.tradeDate) }
      [Event.systemPeriodChange p rest] := by
  rw [h4] at h5
  simp only [setTimeInfoPass, passBody, h1, if_neg h2, stepTradeDateChange, if_pos h3,
    changeSystemPeriod, h4, List.head?_cons, h5, Option.map_some']
  rw [if_pos (And.intro h6 h7)]
  split <;> rfl

/-- Witness for the amended C4 at clock 250 (past market close): the open
timer is not armed, the close timer is. -/
theorem setTimeInfo_market_timers_witness :
    setTimeInfoPass cal4 250 e4 0 false = .done
      { e4 with
          systemPeriods := []
          systemPeriod := some ⟨100, 200⟩
          startTimeHandler := some 100
          endTimeHandler := some 200
          marketOpenTimeHandler :=
            if (250 : Int) < 200 then some 100 else e4.marketOpenTimeHandler
          marketCloseTimeHandler := some 200
          timeInfoHandler := some 300 }
      [Event.systemPeriodChange ⟨100, 200⟩ []] :=
  setTimeInfo_market_timers cal4 250 e4 0 false ti4 ⟨100, 200⟩ ⟨100, 200⟩ []
    rfl (by decide) rfl rfl rfl (by decide) (by decide)

/-! ## C3: what stop(name) cancels -/

/-- An entry with every timer slot armed. -/
def eArmed : Entry :=
  { tradeDate := 20200106
    preTradeDate := 0
    nextTradeDate := 0
    dayStart := 0
    dayEnd := 0
    systemPeriods := []
    systemPeriod := none
    timeInfoHandler := some 1
    startTimeHandler := some 2
    endTimeHandler := some 3
    marketOpenTimeHandler := some 4
    marketCloseTimeHandler := some 5
    timeHandler := some 6 }

/-- C3, counterexample: `stop` clears only the terminal and period
start/end handles; after stopping an entry with every timer armed, the
market-open, market-close and 10-second-retry timers remain armed. -/
theorem stop_leaves_market_and_retry_timers :
    stop [("cn", eArmed)] "cn" =
      [("cn", { eArmed with
                  timeInfoHandler := none
                  startTimeHandler := none
                  endTimeHandler := none })] ∧
    (stopEntry eArmed).marketOpenTimeHandler = some 4 ∧
    (stopEntry eArmed).marketCloseTimeHandler = some 5 ∧
    (stopEntry eArmed).timeHandler = some 6 :=
  ⟨rfl, rfl, rfl, rfl⟩

/-- C3, amended: `stop(name)` cancels exactly the terminal
(after-market-close) timer and the period start/end timers of the named
entry, leaving the market-open, market-close and retry timers armed; it is
idempotent, and a no-op for an unknown name. -/
theorem stop_spec (m : List (String × Entry)) (name : String) :
    (∀ p ∈ stop m name, p.1 = name →
      p.2.timeInfoHandler = none ∧ p.2.startTimeHandler = none ∧
      p.2.endTimeHandler = none) ∧
    (∀ p ∈ m, p.1 = name →
      (p.1, stopEntry p.2) ∈ stop m name ∧
      (stopEntry p.2).marketOpenTimeHandler = p.2.marketOpenTimeHandler ∧
      (stopEntry p.2).marketCloseTimeHandler = p.2.marketCloseTimeHandler ∧
      (stopEntry p.2).timeHandler = p.2.timeHandler) ∧
    stop (stop m name) name = stop m name ∧
    ((∀ p ∈ m, p.1 ≠ name) → stop m name = m) := by
  refine ⟨?_, ?_, ?_, ?_⟩
  · intro p hp hpname
    obtain ⟨q, hq, rfl⟩ := List.mem_map.mp hp
    by_cases hqn : q.1 = name
    · simp [hqn, stopEntry]
    · rw [if_neg hqn] at hpname ⊢
      exact absurd hpname hqn
  · intro p hp hpname
    refine ⟨List.mem_map.mpr ⟨p, hp, by rw [if_pos hpname]⟩, rfl, rfl, rfl⟩
  · unfold stop
    rw [List.map_map]
    apply List.map_congr_left
    intro p _
    by_cases hn : p.1 = name
    · simp [Function.comp, hn, stopEntry]
    · simp [Function.comp, hn]
  · induction m with
    | nil => intro _; rfl
    | cons a t iht =>
      intro hnone
      have h1 := iht (fun p hp => hnone p (List.mem_cons_of_mem a hp))
      simp only [stop, List.map_cons] at h1 ⊢
      rw [if_neg (hnone a (List.mem_cons_self a t)), h1]

/-- Witness for the amended C3: stopping an armed entry clears the three
handles; stopping with an unknown name is the identity. -/
theorem stop_spec_witness :
    (("cn", stopEntry eArmed) ∈ stop [("cn", eArmed)] "cn" ∧
      (stopEntry eArmed).marketOpenTimeHandler = eArmed.marketOpenTimeHandler ∧
      (stopEntry eArmed).marketCloseTimeHandler = eArmed.marketCloseTimeHandler ∧
      (stopEntry eArmed).timeHandler = eArmed.timeHandler) ∧
    stop [("cn", eArmed)] "us" = [("cn", eArmed)] :=
  ⟨(stop_spec [("cn", eArmed)] "cn").2.1 ("cn", eArmed) (by simp) rfl,
   (stop_spec [("cn", eArmed)] "us").2.2.2 (by simp)⟩

end TradeCal
